import Mathlib

/-!
Verification of the turn-orchestration core of the banking-agent
orchestrator: the guardrail pipeline, the per-agent bounded-history
reconstruction, the tool-dispatch loop with its validation layer, the
loan specialist, and the identity-context injection.

Each Python function is translated into an executable Lean definition.
External collaborators (the completion service, the moderation
classifier, the JSON argument parser of the standard library, and the
specialist handler bodies where a claim quantifies over them) are
passed in as explicit parameters, mirroring how the code receives them
as injected clients or instance attributes.  Python floats on the money
path are modelled as rationals; all arithmetic the claims touch is
exact at the modelled inputs.
-/

/-- A chat message as stored in the conversation history
(`role`, `content`, and the optional `agent` audit tag; other dict keys
are never read by the functions verified here). -/
structure Message where
  role : String
  content : String
  agent : Option String
deriving DecidableEq

/-- Substring containment on character lists (Python's `in` operator on
strings): `hasSubstringL s pat` is true iff `pat` occurs contiguously in
`s`. -/
def hasSubstringL : List Char → List Char → Bool
  | s, pat =>
    if pat.isPrefixOf s then true
    else
      match s with
      | [] => false
      | _ :: t => hasSubstringL t pat

/-- Substring containment on strings (Python `pat in s`). -/
def hasSubstr (s pat : String) : Bool :=
  hasSubstringL s.data pat.data

/-- The predicate of `adicionar_cpf_ao_contexto`'s guard: a system
message whose content contains the text `CPF do usuário`. -/
def ehMensagemCpf (m : Message) : Bool :=
  m.role == "system" && hasSubstr m.content "CPF do usuário"

/-- The identity-context message inserted by `adicionar_cpf_ao_contexto`. -/
def mensagemCpf (cpf : String) : Message :=
  ⟨"system", "O CPF do usuário para esta sessão é " ++ cpf ++ ".", none⟩

/-- `adicionar_cpf_ao_contexto` (src/utils/file_utils.py): if no system
message of the history contains `CPF do usuário`, insert the identity
message at position 0; otherwise leave the history unchanged.  The
Python function mutates the list in place; the embedding returns the
resulting list. -/
def adicionarCpfAoContexto (historico : List Message) (cpf : String) : List Message :=
  if historico.any ehMensagemCpf then historico
  else mensagemCpf cpf :: historico

/-! ### Bounded-history reconstruction (`ChatManager`, src/utils/chat_manager.py) -/

/-- The inner backwards scan of `_obter_ultimas_interacoes_agente`
(lines 133-137): the nearest `user`-role message strictly before
index `i` of the history. -/
def perguntaAnterior (historico : List Message) (i : Nat) : Option Message :=
  ((historico.take i).reverse).find? (fun m => m.role == "user")

/-- The pair-collection loop of `_obter_ultimas_interacoes_agente`
(lines 130-141): every `(user, assistant)` pair formed by an
assistant message tagged `agente` together with its nearest preceding
user message; assistant messages with no preceding user message are
skipped. -/
def interacoesAgente (historico : List Message) (agente : String) : List (Message × Message) :=
  historico.enum.filterMap (fun p =>
    if p.2.role == "assistant" && p.2.agent == some agente then
      (perguntaAnterior historico p.1).map (fun u => (u, p.2))
    else none)

/-- `interacoes[-limite:]` (line 144): the trailing window of pairs.
Python's negative slice keeps the whole list when `limite = 0`. -/
def ultimasInteracoes (historico : List Message) (agente : String) (limite : Nat) :
    List (Message × Message) :=
  let it := interacoesAgente historico agente
  if limite == 0 then it else it.drop (it.length - limite)

/-- `_obter_ultimas_interacoes_agente` (lines 125-153): the trailing
window of pairs for one agent, flattened to `[pergunta, resposta]`
message sequences. -/
def obterUltimasInteracoesAgente (historico : List Message) (agente : String)
    (limite : Nat) : List Message :=
  (ultimasInteracoes historico agente limite).flatMap (fun pr => [pr.1, pr.2])

/-- The agent-tag collection of `_aplicar_limitacao_historico`
(lines 101-104): the distinct agent tags among assistant messages.
Python builds a hash set (unspecified iteration order) and tests the
tag for truthiness, so an empty-string tag is excluded; the embedding
uses `dedup`, a canonical duplicate-free list with the same members. -/
def agentesEncontrados (historico : List Message) : List String :=
  (historico.filterMap (fun m =>
    match m.agent with
    | some a => if m.role == "assistant" && a != "" then some a else none
    | none => none)).dedup

/-- The sort key of `_aplicar_limitacao_historico` (line 117):
`historico.index(x) if x in historico else 0`, where Python's
`list.index` returns the position of the first equal element. -/
def chaveOrdenacao (historico : List Message) (m : Message) : Nat :=
  if historico.contains m then historico.indexOf m else 0

/-- `_aplicar_limitacao_historico` (lines 92-123): keep all system
messages, add the trailing window of each discovered agent, and
stable-sort the union by original index in the full history (Python's
`sorted` is a stable sort by key; `insertionSort` with the reflexive
key order is the same stable sort). -/
def aplicarLimitacaoHistorico (historico : List Message) (limite : Nat) : List Message :=
  let mensagensSystem := historico.filter (fun m => m.role == "system")
  let uniao := mensagensSystem ++
    (agentesEncontrados historico).flatMap
      (fun a => obterUltimasInteracoesAgente historico a limite)
  List.insertionSort
    (fun x y => chaveOrdenacao historico x ≤ chaveOrdenacao historico y) uniao

/-! ### Guardrail pipeline (src/utils/guardrails.py, src/utils/moderation.py) -/

/-- `GuardrailResult` (guardrails.py lines 9-16).  The constructor
derives `tripwire_triggered = not passed`, so the embedding keeps only
`passed` and tests its negation where the code reads the tripwire.
`details` is an insertion-ordered string map. -/
structure GuardrailResult where
  passed : Bool
  message : String
  details : List (String × String)
deriving DecidableEq

/-- What a Python validator call can do: return a result or raise. -/
inductive ValidatorOutcome where
  | ok (r : GuardrailResult)
  | raises (e : String)
deriving DecidableEq

/-- An input guardrail: a name plus its `validate` method. -/
structure InputGuardrail where
  name : String
  validate : String → ValidatorOutcome

/-- One entry of the pipeline's `all_details` map (guardrails.py
lines 167-171 and 181-185). -/
structure DetailEntry where
  passed : Bool
  message : String
  details : List (String × String)
deriving DecidableEq

/-- The loop of `aplicar_guardrails_entrada` (lines 163-185), with the
`all_details` insertion-ordered map threaded as an accumulator:
run each validator in order; a not-passed result stops the pipeline
and returns its message; a raising validator is recorded as passed
(fail-open) and the loop continues. -/
def aplicarGuardrailsEntradaAux (input : String) :
    List InputGuardrail → List (String × DetailEntry) →
    Bool × String × List (String × DetailEntry)
  | [], acc => (false, "", acc)
  | g :: rest, acc =>
    match g.validate input with
    | .ok r =>
      let acc2 := acc ++ [(g.name, ⟨r.passed, r.message, r.details⟩)]
      if !r.passed then (true, r.message, acc2)
      else aplicarGuardrailsEntradaAux input rest acc2
    | .raises e =>
      aplicarGuardrailsEntradaAux input rest
        (acc ++ [(g.name, ⟨true, "Erro no guardrail: " ++ e, []⟩)])

/-- `aplicar_guardrails_entrada` (lines 154-187):
returns `(bloqueado, mensagem_erro, all_details)`. -/
def aplicarGuardrailsEntrada (guardrails : List InputGuardrail) (input : String) :
    Bool × String × List (String × DetailEntry) :=
  aplicarGuardrailsEntradaAux input guardrails []

/-- What one call to the moderation service can produce: a result with
the `flagged` verdict plus the category map and the raw response dump,
or an exception. -/
inductive ModerationOutcome where
  | result (flagged : Bool) (categorias : List (String × Bool)) (dump : String)
  | raises (e : String)

/-- The category-to-wording map of `_gerar_mensagem_bloqueio`
(moderation.py lines 50-59). -/
def mensagensCategorias : List (String × String) :=
  [("violence", "conteúdo violento"),
   ("harassment", "assédio ou intimidação"),
   ("harassment_threatening", "ameaças"),
   ("hate", "discurso de ódio"),
   ("sexual", "conteúdo sexual inapropriado"),
   ("illicit", "atividades ilegais"),
   ("illicit_violent", "atividades ilegais violentas"),
   ("self_harm", "conteúdo relacionado a autolesão")]

/-- `_gerar_mensagem_bloqueio` (moderation.py lines 38-76), taking the
list of active category names (the keys of the category map whose
value is true, in map order). -/
def gerarMensagemBloqueio (categoriasAtivas : List String) : String :=
  let categoriasGraves :=
    ["violence", "harassment_threatening", "hate_threatening", "sexual_minors"]
  let descricaoPadrao := "conteúdo inapropriado"
  let descricao :=
    match categoriasGraves.find? (fun c => categoriasAtivas.contains c) with
    | some c => (mensagensCategorias.lookup c).getD descricaoPadrao
    | none =>
      match categoriasAtivas with
      | [] => descricaoPadrao
      | c :: _ => (mensagensCategorias.lookup c).getD descricaoPadrao
  "🚫 **Conteúdo Bloqueado**\n\nSua mensagem foi bloqueada por conter " ++ descricao ++
    ".\n\nEste é um sistema de atendimento bancário profissional. Por favor, mantenha " ++
    "suas perguntas relacionadas aos serviços da Caixa Econômica Federal.\n\n" ++
    "Como posso ajudá-lo com questões sobre empréstimos, FGTS ou outros serviços bancários?"

/-- `ModerationManager.moderar_conteudo` (moderation.py lines 9-36):
returns `(bloqueado, mensagem, detalhes)`.  An exception from the
moderation service is caught inside this method and mapped to
`(False, "", None)` — the method itself fails open. -/
def moderarConteudo (outcome : ModerationOutcome) :
    Bool × String × Option String :=
  match outcome with
  | .raises _ => (false, "", none)
  | .result flagged categorias dump =>
    if flagged then
      (true, gerarMensagemBloqueio ((categorias.filter (fun p => p.2)).map (fun p => p.1)), some dump)
    else (false, "", none)

/-- `ModerationInputGuardrail.validate` (guardrails.py lines 52-70),
with the moderation service supplied as an oracle from the input text
to a `ModerationOutcome`.  Because `moderar_conteudo` catches its own
exceptions, the surrounding fail-open handler of `validate`
(lines 66-70) is unreachable and the embedded validator never raises. -/
def moderationInputGuardrail (moderar : String → ModerationOutcome) : InputGuardrail :=
  { name := "openai_moderation",
    validate := fun input =>
      let r := moderarConteudo (moderar input)
      if r.1 then
        .ok ⟨false, r.2.1, [("moderation_details", (r.2.2).getD "")]⟩
      else
        .ok ⟨true, "Conteúdo aprovado pela moderação", []⟩ }

/-! ### JSON values and Python coercions (the argument layer of
src/utils/function_handler.py) -/

/-- A JSON value as produced by the standard-library JSON parser.
JSON integers and JSON decimals are distinguished because Python's
`int()` and `float()` treat them differently; Python floats on the
money path are modelled as rationals. -/
inductive JVal where
  | jstr (s : String)
  | jint (n : Int)
  | jnum (q : ℚ)
  | jbool (b : Bool)
  | jnull
  | jarr (xs : List JVal)
  | jobj (fields : List (String × JVal))

/-- Digit renderer (fuel-structural so that it evaluates inside the
kernel); `fuel` bounds the number of digits. -/
def natDigitsAux : Nat → Nat → List Char
  | 0, _ => []
  | fuel + 1, n =>
    if n < 10 then [Nat.digitChar n]
    else natDigitsAux fuel (n / 10) ++ [Nat.digitChar (n % 10)]

/-- Decimal rendering of a natural number. -/
def natToStr (n : Nat) : String :=
  ⟨natDigitsAux (n + 1) n⟩

/-- Decimal rendering of an integer. -/
def intToStr (n : Int) : String :=
  if n < 0 then "-" ++ natToStr n.natAbs else natToStr n.natAbs

/-- Python truthiness of a JSON value (`bool(x)`). -/
def pyTruthy : JVal → Bool
  | .jstr s => s != ""
  | .jint n => n != 0
  | .jnum q => q != 0
  | .jbool b => b
  | .jnull => false
  | .jarr xs => !xs.isEmpty
  | .jobj fields => !fields.isEmpty

/-- Python `str(x)`.  `str` never raises; the validation layer only
tests whether the trimmed rendering is empty, which holds exactly for
the empty string, so the rendering of non-string values is simplified
(every non-string value renders non-empty, as in Python). -/
def pyStr : JVal → String
  | .jstr s => s
  | .jint n => intToStr n
  | .jnum q => intToStr q.num ++ "/" ++ natToStr q.den
  | .jbool b => if b then "True" else "False"
  | .jnull => "None"
  | .jarr _ => "[...]"
  | .jobj _ => "\x7b...\x7d"

/-- Python `str.strip()`: drop leading and trailing whitespace
(implemented over the character list so that it evaluates inside the
kernel). -/
def pyStrip (s : String) : String :=
  ⟨(((s.data).dropWhile Char.isWhitespace).reverse.dropWhile Char.isWhitespace).reverse⟩

/-- All-digit parse of a character list (no sign). -/
def parseNatDigits (cs : List Char) : Option Nat :=
  if cs.isEmpty then none
  else if cs.all (fun c => c.isDigit) then
    some (cs.foldl (fun a c => a * 10 + (c.toNat - 48)) 0)
  else none

/-- Python `int(s)` on a string: optional sign, decimal digits
(simplified: underscore separators and non-ASCII digits are not
modelled; no claim depends on them). -/
def parseIntStr (s : String) : Option Int :=
  match (pyStrip s).data with
  | '+' :: rest => (parseNatDigits rest).map (fun n => (n : Int))
  | '-' :: rest => (parseNatDigits rest).map (fun n => -(n : Int))
  | cs => (parseNatDigits cs).map (fun n => (n : Int))

/-- Splits a character list at the first character satisfying `p`;
the second component is `none` when no such character occurs. -/
def splitFirst (p : Char → Bool) : List Char → List Char × Option (List Char)
  | [] => ([], none)
  | c :: t =>
    if p c then ([], some t)
    else
      let r := splitFirst p t
      (c :: r.1, r.2)

/-- The mantissa of a decimal literal: `digits`, `digits.digits`,
`digits.` or `.digits` (at least one digit in total). -/
def parseMantissa (cs : List Char) : Option ℚ :=
  let r := splitFirst (fun c => c == '.') cs
  match r.2 with
  | none => (parseNatDigits cs).map (fun n => (n : ℚ))
  | some fracPart =>
    let intPart := r.1
    if intPart.isEmpty && fracPart.isEmpty then none
    else if !(intPart.all (fun c => c.isDigit)) then none
    else if !(fracPart.all (fun c => c.isDigit)) then none
    else
      let ip : Nat := intPart.foldl (fun a c => a * 10 + (c.toNat - 48)) 0
      let fp : Nat := fracPart.foldl (fun a c => a * 10 + (c.toNat - 48)) 0
      some ((ip : ℚ) + (fp : ℚ) / ((10 : ℚ) ^ fracPart.length))

/-- Python `float(s)` on a string: optional sign, decimal mantissa,
optional exponent (simplified: `inf`, `nan` and underscore separators
are not modelled; no claim depends on them). -/
def parseFloatStr (s : String) : Option ℚ :=
  let t := (pyStrip s).data
  let sr := match t with
    | '+' :: r => ((1 : ℚ), r)
    | '-' :: r => ((-1 : ℚ), r)
    | r => ((1 : ℚ), r)
  let er := splitFirst (fun c => c == 'e' || c == 'E') sr.2
  match er.2 with
  | none => (parseMantissa sr.2).map (fun m => sr.1 * m)
  | some expPart =>
    match parseMantissa er.1, parseIntStr ⟨expPart⟩ with
    | some m, some e => some (sr.1 * m * (10 : ℚ) ^ (e : ℤ))
    | _, _ => none

/-- Truncation toward zero of a rational (Python `int(float)`). -/
def ratTrunc (q : ℚ) : Int :=
  q.num.tdiv (q.den : Int)

/-- Python `float(x)` on a JSON value: numbers and booleans coerce,
numeric strings parse, everything else raises (`none`). -/
def pyFloat : JVal → Option ℚ
  | .jint n => some (n : ℚ)
  | .jnum q => some q
  | .jbool b => some (if b then 1 else 0)
  | .jstr s => parseFloatStr s
  | _ => none

/-- Python `int(x)` on a JSON value: integers and booleans coerce,
decimals truncate toward zero, integer-format strings parse,
everything else raises (`none`). -/
def pyInt : JVal → Option Int
  | .jint n => some n
  | .jnum q => some (ratTrunc q)
  | .jbool b => some (if b then 1 else 0)
  | .jstr s => parseIntStr s
  | _ => none

/-- The numeric value Python's arithmetic operators (`/`, `>`) see in a
JSON value: `int`, `float` and `bool` operands are numeric, any other
operand raises `TypeError` before any arithmetic happens. -/
def pyToNum : JVal → Option ℚ
  | .jint n => some (n : ℚ)
  | .jnum q => some q
  | .jbool b => some (if b then 1 else 0)
  | _ => none

/-! ### Validation, dispatch and the tool loop
(`FunctionCallHandler`, src/utils/function_handler.py) -/

/-- A tool invocation as returned by the completion service
(`tool_call.id`, `tool_call.type`, `function.name`,
`function.arguments` — the raw argument text). -/
structure ToolCall where
  id : String
  ctype : String
  name : String
  arguments : String

/-- A message of the working context of one orchestration turn: the
plain role/content dicts, the assistant message that carries tool
calls (lines 250-264), and the `role:"tool"` result message
(lines 281-286; its content is the `json.dumps` of the result payload,
kept structured here since `json.dumps` is injective on payloads). -/
inductive OMsg where
  | plain (role : String) (content : String)
  | assistantCalls (content : Option String) (calls : List ToolCall)
  | toolResult (toolCallId : String) (name : String) (content : JVal)

/-- The `role` key of a working-context message. -/
def OMsg.role : OMsg → String
  | .plain r _ => r
  | .assistantCalls _ _ => "assistant"
  | .toolResult _ _ _ => "tool"

/-- A structured error payload
(`{"erro": True, "mensagem": m}`). -/
def erroPayload (m : String) : JVal :=
  .jobj [("erro", .jbool true), ("mensagem", .jstr m)]

/-- What a specialist handler call can do: return a result dict or
raise (lines 225-230 catch the latter). -/
inductive HandlerOutcome where
  | ok (r : JVal)
  | raises (e : String)

/-- The four specialist handler bodies behind the dispatch table
(instance attributes of `FunctionCallHandler`, lines 34-53).  The
claims about the dispatch layer hold for every choice of handler
bodies and every user-database type `δ`, which is how "the handler is
not invoked" is expressed: the dispatch result does not depend on
them. -/
structure Handlers (δ : Type) where
  emprestimo : JVal → JVal → JVal → δ → HandlerOutcome
  analiseRisco : JVal → δ → Option (List OMsg) → HandlerOutcome
  webSearch : JVal → JVal → HandlerOutcome
  fileSearch : JVal → JVal → HandlerOutcome

/-- `_processar_emprestimo` (lines 55-62): passes the raw argument
values to the loan agent; a missing key raises `KeyError`. -/
def processarEmprestimoCall {δ : Type} (h : Handlers δ) (args : List (String × JVal))
    (db : δ) : HandlerOutcome :=
  match args.lookup "cpf", args.lookup "valor", args.lookup "qtd_parcelas" with
  | some c, some v, some q => h.emprestimo c v q db
  | _, _, _ => .raises "KeyError"

/-- `_processar_analise_risco` (lines 64-73): the history is passed on
unless `incluir_historico` is present and falsy. -/
def processarAnaliseRiscoCall {δ : Type} (h : Handlers δ) (args : List (String × JVal))
    (db : δ) (historico : List OMsg) : HandlerOutcome :=
  match args.lookup "cpf" with
  | some c =>
    let incluir := pyTruthy ((args.lookup "incluir_historico").getD (.jbool true))
    h.analiseRisco c db (if incluir then some historico else none)
  | none => .raises "KeyError"

/-- `_processar_web_search` (lines 75-80): a missing `localizacao`
becomes Python `None`. -/
def processarWebSearchCall {δ : Type} (h : Handlers δ) (args : List (String × JVal)) :
    HandlerOutcome :=
  match args.lookup "pergunta" with
  | some p => h.webSearch p ((args.lookup "localizacao").getD .jnull)
  | none => .raises "KeyError"

/-- `_processar_file_search` (lines 82-87). -/
def processarFileSearchCall {δ : Type} (h : Handlers δ) (args : List (String × JVal)) :
    HandlerOutcome :=
  match args.lookup "cpf", args.lookup "pergunta" with
  | some c, some p => h.fileSearch c p
  | _, _ => .raises "KeyError"

/-- `_validate_arguments` (lines 89-195): required-key presence, then
type coercion (`str` / `float` / `int`), then the domain predicates
(non-blank identifier, positive amount, positive installment count).
The advisory checks of the web/file branches (`validar_pergunta`,
`verificar_historico_disponivel`) only print warnings and never change
the returned value, so they do not appear in the embedding.  An
unknown function name falls through to the final `return False`. -/
def validateArguments (functionName : String) (args : List (String × JVal)) : Bool :=
  if functionName == "emprestimo_agent" then
    match args.lookup "cpf", args.lookup "valor", args.lookup "qtd_parcelas" with
    | some c, some v, some q =>
      match pyFloat v, pyInt q with
      | some valor, some qtd =>
        if pyStrip (pyStr c) == "" then false
        else if valor ≤ 0 then false
        else if qtd ≤ 0 then false
        else true
      | _, _ => false
    | _, _, _ => false
  else if functionName == "analise_risco_agent" then
    match args.lookup "cpf" with
    | some c => !(pyStrip (pyStr c) == "")
    | none => false
  else if functionName == "web_search_agent" then
    match args.lookup "pergunta" with
    | some p => !(pyStrip (pyStr p) == "")
    | none => false
  else if functionName == "file_search_agent" then
    match args.lookup "cpf", args.lookup "pergunta" with
    | some c, some p => !(pyStrip (pyStr c) == "") && !(pyStrip (pyStr p) == "")
    | _, _ => false
  else false

/-- The names in the closed dispatch table `available_functions`
(lines 48-53). -/
def availableFunctions : List String :=
  ["emprestimo_agent", "analise_risco_agent", "web_search_agent", "file_search_agent"]

/-- `_execute_function` (lines 197-230): validate, then dispatch
through the closed table; a handler exception is caught and converted
to a structured error; an unknown name yields a structured error.  The
whole body sits in a `try`, so the function always returns a payload. -/
def executeFunction {δ : Type} (h : Handlers δ) (functionName : String)
    (args : List (String × JVal)) (db : δ) (historico : List OMsg) : JVal :=
  if !validateArguments functionName args then
    erroPayload ("Argumentos inválidos para " ++ functionName)
  else if availableFunctions.contains functionName then
    let outcome :=
      if functionName == "analise_risco_agent" then
        processarAnaliseRiscoCall h args db historico
      else if functionName == "web_search_agent" then
        processarWebSearchCall h args
      else if functionName == "file_search_agent" then
        processarFileSearchCall h args
      else
        processarEmprestimoCall h args db
    match outcome with
    | .ok r => r
    | .raises e =>
      erroPayload ("Erro interno ao executar " ++ functionName ++ ": " ++ e)
  else
    erroPayload ("Função " ++ functionName ++ " não encontrada")

/-- The fixed payload appended when the raw argument text of an
invocation is not parseable JSON (lines 288-299). -/
def erroParsePayload : JVal :=
  erroPayload "Erro ao processar argumentos da função"

/-- The `for tool_call in ...` loop of `processar_resposta_com_tools`
(lines 266-299), threading the working context and the
`agentes_usados` audit list: every invocation appends exactly one
`role:"tool"` message — the executed result on a successful parse, the
fixed argument-processing-error payload otherwise.  `parseJson` is the
standard-library JSON parser for argument objects (`json.loads`); a
text that is not a JSON object map is modelled as a parse failure. -/
def toolLoop {δ : Type} (parseJson : String → Option (List (String × JVal)))
    (h : Handlers δ) (db : δ) :
    List ToolCall → List OMsg → List String → List OMsg × List String
  | [], msgs, ags => (msgs, ags)
  | tc :: rest, msgs, ags =>
    let ags2 := ags ++ [tc.name]
    match parseJson tc.arguments with
    | some args =>
      let historicoChat := msgs.filter (fun m => m.role == "user" || m.role == "assistant")
      let resultado := executeFunction h tc.name args db historicoChat
      toolLoop parseJson h db rest (msgs ++ [OMsg.toolResult tc.id tc.name resultado]) ags2
    | none =>
      toolLoop parseJson h db rest (msgs ++ [OMsg.toolResult tc.id tc.name erroParsePayload]) ags2

/-- The completion service's reply to the first call: an assistant
message with optional text content and the requested tool invocations
(`[]` models both `None` and an empty list, which Python's truthiness
test treats alike). -/
structure CompletionResponse where
  content : Option String
  toolCalls : List ToolCall

/-- The fixed apology returned when an exception escapes the protocol
(lines 320-322). -/
def mensagemErroInterno : String :=
  "Desculpe, ocorreu um erro interno. Tente novamente."

/-- `processar_resposta_com_tools` (lines 232-322).  The two
completion-service calls are the explicit parameters `resposta1` (the
already-obtained reply to the first call) and `completion2` (the
second call, applied to the working context after all tool results
were appended); either may raise, which the top-level handler converts
to the fixed apology with agent `assistant_erro`.  Returns
`(resposta_texto, agente_usado)`; the text is optional because the
service's content field may be `None`. -/
def processarRespostaComTools {δ : Type}
    (parseJson : String → Option (List (String × JVal)))
    (h : Handlers δ) (mensagens : List OMsg)
    (resposta1 : Except String CompletionResponse)
    (completion2 : List OMsg → Except String (Option String))
    (db : δ) : Option String × String :=
  match resposta1 with
  | .error _ => (some mensagemErroInterno, "assistant_erro")
  | .ok rm =>
    match rm.toolCalls with
    | [] => (rm.content, "assistant_geral")
    | _ :: _ =>
      let loopOut := toolLoop parseJson h db rm.toolCalls
        (mensagens ++ [OMsg.assistantCalls rm.content rm.toolCalls]) []
      match completion2 loopOut.1 with
      | .ok t => (t, loopOut.2.headD "assistant_geral")
      | .error _ => (some mensagemErroInterno, "assistant_erro")

/-! ### Loan specialist (`EmprestimoAgent`, src/agentes/emprestimo_agent.py) -/

/-- A record of the user database (`users.json`): the fields the loan
agent reads.  `usuario.get("nome_sujo", False)` defaults to false, so
the flag is a plain boolean field. -/
structure Cliente where
  nome : String
  nomeSujo : Bool

/-- Floor of a rational as an integer (the denominator is positive, so
flooring the numerator-by-denominator division is exact). -/
def ratFloorZ (q : ℚ) : Int :=
  q.num.fdiv (q.den : Int)

/-- Python's `round` to the nearest integer, ties to even
(banker's rounding). -/
def roundHalfEven (q : ℚ) : Int :=
  let f := ratFloorZ q
  let r := q - (f : ℚ)
  if r < 1 / 2 then f
  else if 1 / 2 < r then f + 1
  else if f % 2 = 0 then f else f + 1

/-- Python's `round(x, 2)`. -/
def roundTo2 (q : ℚ) : ℚ :=
  (roundHalfEven (q * 100) : ℚ) / 100

/-- Python's fixed-point rendering `f"{x:.2f}"`: the value rounded to
two decimals (ties to even at exact halves) with a forced two-digit
fraction. -/
def formatFix2 (q : ℚ) : String :=
  let cents := roundHalfEven (q * 100)
  let a := cents.natAbs
  let fracPart := a % 100
  (if q < 0 then "-" else "") ++ natToStr (a / 100) ++ "." ++
    (if fracPart < 10 then "0" else "") ++ natToStr fracPart

/-- The result dict of the loan agent: `aprovado`, `mensagem`, and the
`valor_simulado` sub-dict (absent, i.e. `None`, on refusal). -/
structure SimulacaoEmprestimo where
  valorTotal : ℚ
  qtdParcelas : Int
  valorParcela : ℚ

structure ResultadoEmprestimo where
  aprovado : Bool
  mensagem : String
  valorSimulado : Option SimulacaoEmprestimo

/-- `EmprestimoAgent.processar` (lines 14-63), at the agent's declared
signature (`cpf: str, valor: float, qtd_parcelas: int`): unknown
identifier → refusal; restricted customer (`nome_sujo`) asking more
than 500 → refusal whose message cites the R$500,00 ceiling; otherwise
approval with the per-installment amount `valor / qtd_parcelas`. -/
def EmprestimoAgent.processar (cpf : String) (valor : ℚ) (qtdParcelas : Int)
    (usuariosDb : List (String × Cliente)) : ResultadoEmprestimo :=
  match usuariosDb.lookup cpf with
  | none =>
    ⟨false, "CPF " ++ cpf ++ " não encontrado na base.", none⟩
  | some usuario =>
    if usuario.nomeSujo ∧ 500 < valor then
      ⟨false,
        "Empréstimo recusado para " ++ usuario.nome ++ " (CPF " ++ cpf ++
          "): valor de R$" ++ formatFix2 valor ++
          " acima do permitido para clientes com restrições (máximo R$500,00).",
        none⟩
    else
      let valorParcela := valor / (qtdParcelas : ℚ)
      ⟨true,
        "Empréstimo aprovado para " ++ usuario.nome ++ " (CPF " ++ cpf ++
          ") no valor de R$" ++ formatFix2 valor ++ " em " ++ intToStr qtdParcelas ++
          " parcelas de R$" ++ formatFix2 valorParcela ++ ".",
        some ⟨valor, qtdParcelas, roundTo2 valorParcela⟩⟩

/-! ### Concrete fixtures used by witnesses and counterexamples -/

/-- Handlers that all return `null`; claims about the dispatch layer are
independent of handler bodies. -/
def trivialHandlers : Handlers Unit where
  emprestimo := fun _ _ _ _ => .ok .jnull
  analiseRisco := fun _ _ _ => .ok .jnull
  webSearch := fun _ _ => .ok .jnull
  fileSearch := fun _ _ => .ok .jnull

/-- Handlers that return distinguishable success payloads. -/
def okHandlers : Handlers Unit where
  emprestimo := fun _ _ _ _ => .ok (.jstr "emprestimo-ok")
  analiseRisco := fun _ _ _ => .ok (.jstr "risco-ok")
  webSearch := fun _ _ => .ok (.jstr "web-ok")
  fileSearch := fun _ _ => .ok (.jstr "file-ok")

/-- A valid loan argument map. -/
def argsEmprestimoValidos : List (String × JVal) :=
  [("cpf", .jstr "111"), ("valor", .jint 1200), ("qtd_parcelas", .jint 6)]

/-- A valid risk-analysis argument map. -/
def argsRiscoValidos : List (String × JVal) :=
  [("cpf", .jstr "111")]

/-- A concrete stand-in for the JSON argument parser: recognises two
fixed argument texts and fails on everything else. -/
def parseTeste : String → Option (List (String × JVal)) :=
  fun s =>
    if s == "emp-args" then some argsEmprestimoValidos
    else if s == "risco-args" then some argsRiscoValidos
    else none

/-- A validator that blocks every input. -/
def bloqueiaTudo : InputGuardrail :=
  ⟨"bloqueia_tudo", fun _ => .ok ⟨false, "entrada bloqueada", []⟩⟩

/-- A validator that passes every input. -/
def aprovaTudo : InputGuardrail :=
  ⟨"aprova_tudo", fun _ => .ok ⟨true, "ok", []⟩⟩

/-- A validator that raises on every input. -/
def lancaErro : InputGuardrail :=
  ⟨"lanca_erro", fun _ => .raises "servico indisponivel"⟩

/-- A moderation oracle that raises on every input. -/
def moderacaoFalha : String → ModerationOutcome :=
  fun _ => .raises "timeout"

/-- Six tagged assistant replies with no user message anywhere. -/
def historicoSeisRespostas : List Message :=
  [⟨"assistant", "r1", some "emprestimo_agent"⟩,
   ⟨"assistant", "r2", some "emprestimo_agent"⟩,
   ⟨"assistant", "r3", some "emprestimo_agent"⟩,
   ⟨"assistant", "r4", some "emprestimo_agent"⟩,
   ⟨"assistant", "r5", some "emprestimo_agent"⟩,
   ⟨"assistant", "r6", some "emprestimo_agent"⟩]

/-- A history that already holds two identity-context system messages. -/
def historicoDoisCpf : List Message :=
  [mensagemCpf "111", mensagemCpf "222"]

/-- A windowing example: a system prompt and six complete
question/answer exchanges of the loan agent. -/
def historicoSeisPares : List Message :=
  [⟨"system", "prompt", none⟩,
   ⟨"user", "q1", none⟩, ⟨"assistant", "r1", some "emprestimo_agent"⟩,
   ⟨"user", "q2", none⟩, ⟨"assistant", "r2", some "emprestimo_agent"⟩,
   ⟨"user", "q3", none⟩, ⟨"assistant", "r3", some "emprestimo_agent"⟩,
   ⟨"user", "q4", none⟩, ⟨"assistant", "r4", some "emprestimo_agent"⟩,
   ⟨"user", "q5", none⟩, ⟨"assistant", "r5", some "emprestimo_agent"⟩,
   ⟨"user", "q6", none⟩, ⟨"assistant", "r6", some "emprestimo_agent"⟩]

/-! ### Theorems -/

/-- C2: if the first input validator returns a not-passed result, the
pipeline returns blocked with exactly that validator's message, and the
details map — which records precisely the validators that were run —
holds only the first validator's entry, for every choice of the
remaining validators (so none of them is invoked). -/
theorem guardrail_short_circuit (v : InputGuardrail) (rest : List InputGuardrail)
    (input : String) (r : GuardrailResult)
    (hv : v.validate input = .ok r) (hfail : r.passed = false) :
    aplicarGuardrailsEntrada (v :: rest) input =
      (true, r.message, [(v.name, ⟨false, r.message, r.details⟩)]) := by
  simp [aplicarGuardrailsEntrada, aplicarGuardrailsEntradaAux, hv, hfail]

/-- Witness for C2: a concrete blocking first validator followed by a
second validator; the pipeline returns the first validator's message
and a one-entry details map. -/
theorem guardrail_short_circuit_witness :
    aplicarGuardrailsEntrada [bloqueiaTudo, aprovaTudo] "oi" =
      (true, "entrada bloqueada", [("bloqueia_tudo", ⟨false, "entrada bloqueada", []⟩)]) :=
  guardrail_short_circuit bloqueiaTudo [aprovaTudo] "oi" ⟨false, "entrada bloqueada", []⟩ rfl rfl

/-- The `all_details` accumulator of the pipeline only ever grows by
appending: a leading accumulator prefix passes through unchanged and
does not influence the verdict or the message. -/
theorem aplicarGuardrailsEntradaAux_acc (input : String) (vs : List InputGuardrail)
    (acc1 acc2 : List (String × DetailEntry)) :
    aplicarGuardrailsEntradaAux input vs (acc1 ++ acc2) =
      ((aplicarGuardrailsEntradaAux input vs acc2).1,
       (aplicarGuardrailsEntradaAux input vs acc2).2.1,
       acc1 ++ (aplicarGuardrailsEntradaAux input vs acc2).2.2) := by
  induction vs generalizing acc1 acc2 with
  | nil => simp [aplicarGuardrailsEntradaAux]
  | cons g rest ih =>
    cases hg : g.validate input with
    | ok r =>
      by_cases hp : r.passed
      · have hcond : ¬((!r.passed) = true) := by simp [hp]
        simp only [aplicarGuardrailsEntradaAux, hg, if_neg hcond]
        have h1 : acc1 ++ acc2 ++ [(g.name, (⟨r.passed, r.message, r.details⟩ : DetailEntry))] =
            acc1 ++ (acc2 ++ [(g.name, ⟨r.passed, r.message, r.details⟩)]) := by simp
        rw [h1]
        exact ih acc1 (acc2 ++ [(g.name, ⟨r.passed, r.message, r.details⟩)])
      · simp only [Bool.not_eq_true] at hp
        simp [aplicarGuardrailsEntradaAux, hg, hp]
    | raises e =>
      simp only [aplicarGuardrailsEntradaAux, hg]
      have h1 : acc1 ++ acc2 ++ [(g.name, (⟨true, "Erro no guardrail: " ++ e, []⟩ : DetailEntry))] =
          acc1 ++ (acc2 ++ [(g.name, ⟨true, "Erro no guardrail: " ++ e, []⟩)]) := by simp
      rw [h1]
      exact ih acc1 (acc2 ++ [(g.name, ⟨true, "Erro no guardrail: " ++ e, []⟩)])

/-- C3: a validator that raises is treated as passed — the pipeline's
verdict and message are exactly those produced by the remaining
validators — and its failure is recorded in the details map as a
passed entry carrying the exception text; and the moderation guardrail
maps a raising moderation classifier to a passed result, so a
moderation-classifier exception never blocks the input. -/
theorem guardrail_fail_open (v : InputGuardrail) (rest : List InputGuardrail)
    (input e : String) (moderar : String → ModerationOutcome) (input2 e2 : String)
    (hv : v.validate input = .raises e) (hm : moderar input2 = .raises e2) :
    aplicarGuardrailsEntrada (v :: rest) input =
      ((aplicarGuardrailsEntrada rest input).1,
       (aplicarGuardrailsEntrada rest input).2.1,
       (v.name, ⟨true, "Erro no guardrail: " ++ e, []⟩) ::
         (aplicarGuardrailsEntrada rest input).2.2) ∧
    (moderationInputGuardrail moderar).validate input2 =
      .ok ⟨true, "Conteúdo aprovado pela moderação", []⟩ := by
  constructor
  · show aplicarGuardrailsEntradaAux input (v :: rest) [] = _
    simp only [aplicarGuardrailsEntradaAux, hv]
    have h1 : ([] : List (String × DetailEntry)) ++
        [(v.name, (⟨true, "Erro no guardrail: " ++ e, []⟩ : DetailEntry))] =
        [(v.name, ⟨true, "Erro no guardrail: " ++ e, []⟩)] ++ [] := by simp
    rw [h1, aplicarGuardrailsEntradaAux_acc input rest
      [(v.name, ⟨true, "Erro no guardrail: " ++ e, []⟩)] []]
    rfl
  · simp [moderationInputGuardrail, moderarConteudo, hm]

/-- Witness for C3: a raising validator followed by a blocking one —
the pipeline skips the raiser (recording it as passed), then blocks on
the second; and the moderation guardrail with a raising oracle passes. -/
theorem guardrail_fail_open_witness :
    aplicarGuardrailsEntrada [lancaErro, bloqueiaTudo] "oi" =
      (true, "entrada bloqueada",
        [("lanca_erro", ⟨true, "Erro no guardrail: servico indisponivel", []⟩),
         ("bloqueia_tudo", ⟨false, "entrada bloqueada", []⟩)]) ∧
    (moderationInputGuardrail moderacaoFalha).validate "oi" =
      .ok ⟨true, "Conteúdo aprovado pela moderação", []⟩ := by
  have h := guardrail_fail_open lancaErro [bloqueiaTudo] "oi" "servico indisponivel"
    moderacaoFalha "oi" "timeout" rfl rfl
  exact ⟨by rw [h.1]; rfl, h.2⟩

/-- C6: an argument map rejected by validation yields the structured
invalid-arguments error payload, for every choice of handler bodies —
so no specialist handler is ever invoked for it. -/
theorem validation_failure_no_handler {δ : Type} (h : Handlers δ) (functionName : String)
    (args : List (String × JVal)) (db : δ) (historico : List OMsg)
    (hval : validateArguments functionName args = false) :
    executeFunction h functionName args db historico =
      erroPayload ("Argumentos inválidos para " ++ functionName) := by
  simp [executeFunction, hval]

/-- Witness for C6: the loan specialist with a missing required field
(`valor`, `qtd_parcelas` absent) fails validation and produces the
structured error. -/
theorem validation_failure_no_handler_witness :
    validateArguments "emprestimo_agent" [("cpf", JVal.jstr "111")] = false ∧
    executeFunction trivialHandlers "emprestimo_agent" [("cpf", JVal.jstr "111")] () [] =
      erroPayload "Argumentos inválidos para emprestimo_agent" :=
  ⟨rfl, validation_failure_no_handler trivialHandlers "emprestimo_agent"
    [("cpf", JVal.jstr "111")] () [] rfl⟩

/-- C5 (amended): a specialist name outside the closed dispatch table
produces a structured error payload — the invalid-arguments error,
because validation rejects unknown names before the handler-not-found
branch can run — and no handler is invoked (the result is independent
of every handler body). -/
theorem unknown_name_no_handler {δ : Type} (h : Handlers δ) (functionName : String)
    (args : List (String × JVal)) (db : δ) (historico : List OMsg)
    (hunk : availableFunctions.contains functionName = false) :
    executeFunction h functionName args db historico =
      erroPayload ("Argumentos inválidos para " ++ functionName) := by
  simp only [availableFunctions, List.contains, List.elem_eq_mem, List.mem_cons,
    List.mem_singleton, decide_eq_false_iff_not] at hunk
  push_neg at hunk
  obtain ⟨h1, h2, h3, h4⟩ := hunk
  have hval : validateArguments functionName args = false := by
    simp [validateArguments, h1, h2, h3, h4]
  simp [executeFunction, hval]

/-- Counterexample for C5 as stated: for the unknown name
`transferencia_agent` the code returns the invalid-arguments error, not
the handler-not-found error the claim promises (that branch is
unreachable because validation rejects unknown names first). -/
theorem unknown_name_counterexample :
    executeFunction trivialHandlers "transferencia_agent" [] () [] =
      erroPayload "Argumentos inválidos para transferencia_agent" ∧
    erroPayload "Argumentos inválidos para transferencia_agent" ≠
      erroPayload "Função transferencia_agent não encontrada" := by
  refine ⟨rfl, ?_⟩
  simp [erroPayload]

/-- Witness for C5's amended theorem at a concrete unknown name. -/
theorem unknown_name_no_handler_witness :
    availableFunctions.contains "transferencia_agent" = false ∧
    executeFunction okHandlers "transferencia_agent" [("cpf", JVal.jstr "111")] () [] =
      erroPayload "Argumentos inválidos para transferencia_agent" :=
  ⟨rfl, unknown_name_no_handler okHandlers "transferencia_agent"
    [("cpf", JVal.jstr "111")] () [] rfl⟩

/-- C7: an invocation whose raw argument text does not parse yields the
fixed argument-processing-error payload as a `tool` message — the loop
does not raise — and the turn still proceeds to the second
completion-service call, whose text is returned. -/
theorem malformed_arguments_recovered {δ : Type}
    (parseJson : String → Option (List (String × JVal))) (h : Handlers δ)
    (mensagens : List OMsg) (content : Option String) (tc : ToolCall)
    (db : δ) (completion2 : List OMsg → Except String (Option String)) (t : Option String)
    (hparse : parseJson tc.arguments = none)
    (hc2 : completion2 (mensagens ++ [OMsg.assistantCalls content [tc],
        OMsg.toolResult tc.id tc.name erroParsePayload]) = .ok t) :
    toolLoop parseJson h db [tc] (mensagens ++ [OMsg.assistantCalls content [tc]]) [] =
      (mensagens ++ [OMsg.assistantCalls content [tc],
        OMsg.toolResult tc.id tc.name erroParsePayload], [tc.name]) ∧
    processarRespostaComTools parseJson h mensagens (.ok ⟨content, [tc]⟩) completion2 db =
      (t, tc.name) := by
  have hloop : toolLoop parseJson h db [tc]
      (mensagens ++ [OMsg.assistantCalls content [tc]]) [] =
      (mensagens ++ [OMsg.assistantCalls content [tc],
        OMsg.toolResult tc.id tc.name erroParsePayload], [tc.name]) := by
    simp [toolLoop, hparse]
  refine ⟨hloop, ?_⟩
  simp only [processarRespostaComTools, hloop, hc2]
  rfl

/-- Witness for C7: a concrete invocation with unparseable argument
text; the loop appends the fixed error payload and the final answer of
the second call is returned with the invocation's own agent name. -/
theorem malformed_arguments_recovered_witness :
    parseTeste "nao-e-json" = none ∧
    processarRespostaComTools parseTeste trivialHandlers [OMsg.plain "user" "oi"]
      (.ok ⟨none, [⟨"call-1", "function", "emprestimo_agent", "nao-e-json"⟩]⟩)
      (fun _ => .ok (some "resposta final")) () =
      (some "resposta final", "emprestimo_agent") :=
  ⟨rfl,
    (malformed_arguments_recovered parseTeste trivialHandlers [OMsg.plain "user" "oi"] none
      ⟨"call-1", "function", "emprestimo_agent", "nao-e-json"⟩ ()
      (fun _ => .ok (some "resposta final")) (some "resposta final") rfl rfl).2⟩

/-- C4: for a completion-service reply requesting the loan and then the
risk invocation, the loop executes the loan invocation first and the
risk invocation second (each sees the working context as of its turn),
appends both tool results in request order before the second
completion-service call is made — the second call receives exactly the
context extended with both results — and the returned agent is the
loan specialist, the first requested invocation. -/
theorem tool_loop_determinism {δ : Type}
    (parseJson : String → Option (List (String × JVal))) (h : Handlers δ)
    (mensagens : List OMsg) (content : Option String)
    (i1 ty1 a1 i2 ty2 a2 : String)
    (argsL argsR : List (String × JVal)) (db : δ)
    (completion2 : List OMsg → Except String (Option String))
    (r1 r2 : JVal) (t : Option String)
    (hp1 : parseJson a1 = some argsL) (hp2 : parseJson a2 = some argsR)
    (hr1 : executeFunction h "emprestimo_agent" argsL db
      ((mensagens ++ [OMsg.assistantCalls content
          [⟨i1, ty1, "emprestimo_agent", a1⟩, ⟨i2, ty2, "analise_risco_agent", a2⟩]]).filter
        (fun m => m.role == "user" || m.role == "assistant")) = r1)
    (hr2 : executeFunction h "analise_risco_agent" argsR db
      ((mensagens ++ [OMsg.assistantCalls content
          [⟨i1, ty1, "emprestimo_agent", a1⟩, ⟨i2, ty2, "analise_risco_agent", a2⟩],
          OMsg.toolResult i1 "emprestimo_agent" r1]).filter
        (fun m => m.role == "user" || m.role == "assistant")) = r2)
    (hc2 : completion2 (mensagens ++ [OMsg.assistantCalls content
        [⟨i1, ty1, "emprestimo_agent", a1⟩, ⟨i2, ty2, "analise_risco_agent", a2⟩],
        OMsg.toolResult i1 "emprestimo_agent" r1,
        OMsg.toolResult i2 "analise_risco_agent" r2]) = .ok t) :
    toolLoop parseJson h db
      [⟨i1, ty1, "emprestimo_agent", a1⟩, ⟨i2, ty2, "analise_risco_agent", a2⟩]
      (mensagens ++ [OMsg.assistantCalls content
        [⟨i1, ty1, "emprestimo_agent", a1⟩, ⟨i2, ty2, "analise_risco_agent", a2⟩]]) [] =
      (mensagens ++ [OMsg.assistantCalls content
        [⟨i1, ty1, "emprestimo_agent", a1⟩, ⟨i2, ty2, "analise_risco_agent", a2⟩],
        OMsg.toolResult i1 "emprestimo_agent" r1,
        OMsg.toolResult i2 "analise_risco_agent" r2],
       ["emprestimo_agent", "analise_risco_agent"]) ∧
    processarRespostaComTools parseJson h mensagens
      (.ok ⟨content, [⟨i1, ty1, "emprestimo_agent", a1⟩, ⟨i2, ty2, "analise_risco_agent", a2⟩]⟩)
      completion2 db = (t, "emprestimo_agent") := by
  have hloop : toolLoop parseJson h db
      [⟨i1, ty1, "emprestimo_agent", a1⟩, ⟨i2, ty2, "analise_risco_agent", a2⟩]
      (mensagens ++ [OMsg.assistantCalls content
        [⟨i1, ty1, "emprestimo_agent", a1⟩, ⟨i2, ty2, "analise_risco_agent", a2⟩]]) [] =
      (mensagens ++ [OMsg.assistantCalls content
        [⟨i1, ty1, "emprestimo_agent", a1⟩, ⟨i2, ty2, "analise_risco_agent", a2⟩],
        OMsg.toolResult i1 "emprestimo_agent" r1,
        OMsg.toolResult i2 "analise_risco_agent" r2],
       ["emprestimo_agent", "analise_risco_agent"]) := by
    simp only [toolLoop, hp1, hp2, List.append_assoc, List.singleton_append,
      List.cons_append, List.nil_append]
    rw [hr1, hr2]
  refine ⟨hloop, ?_⟩
  simp only [processarRespostaComTools, hloop, hc2]
  rfl

/-- Witness for C4 at a fully concrete turn: loan then risk, both valid
argument maps, distinguishable handler payloads. -/
theorem tool_loop_determinism_witness :
    processarRespostaComTools parseTeste okHandlers [OMsg.plain "user" "quero um emprestimo"]
      (.ok ⟨none, [⟨"call-1", "function", "emprestimo_agent", "emp-args"⟩,
                   ⟨"call-2", "function", "analise_risco_agent", "risco-args"⟩]⟩)
      (fun _ => .ok (some "resposta final")) () =
      (some "resposta final", "emprestimo_agent") ∧
    toolLoop parseTeste okHandlers ()
      [⟨"call-1", "function", "emprestimo_agent", "emp-args"⟩,
       ⟨"call-2", "function", "analise_risco_agent", "risco-args"⟩]
      ([OMsg.plain "user" "quero um emprestimo"] ++ [OMsg.assistantCalls none
        [⟨"call-1", "function", "emprestimo_agent", "emp-args"⟩,
         ⟨"call-2", "function", "analise_risco_agent", "risco-args"⟩]]) [] =
      ([OMsg.plain "user" "quero um emprestimo"] ++ [OMsg.assistantCalls none
        [⟨"call-1", "function", "emprestimo_agent", "emp-args"⟩,
         ⟨"call-2", "function", "analise_risco_agent", "risco-args"⟩],
        OMsg.toolResult "call-1" "emprestimo_agent" (.jstr "emprestimo-ok"),
        OMsg.toolResult "call-2" "analise_risco_agent" (.jstr "risco-ok")],
       ["emprestimo_agent", "analise_risco_agent"]) := by
  have h := tool_loop_determinism parseTeste okHandlers
    [OMsg.plain "user" "quero um emprestimo"] none
    "call-1" "function" "emp-args" "call-2" "function" "risco-args"
    argsEmprestimoValidos argsRiscoValidos ()
    (fun _ => .ok (some "resposta final"))
    (.jstr "emprestimo-ok") (.jstr "risco-ok") (some "resposta final")
    rfl rfl rfl rfl rfl
  exact ⟨h.2, h.1⟩

/-- C10: an argument map that passes loan validation carries a
`qtd_parcelas` value whose numeric reading — the value Python's `/`
operator would divide by in the loan handler — is not zero, so the
handler's division can never be a division by zero (a non-numeric
value raises `TypeError` before any division, never
`ZeroDivisionError`). -/
theorem validated_loan_divisor_nonzero (args : List (String × JVal))
    (hval : validateArguments "emprestimo_agent" args = true) :
    ∃ q, args.lookup "qtd_parcelas" = some q ∧ pyToNum q ≠ some 0 := by
  simp only [validateArguments, beq_self_eq_true, if_true] at hval
  rcases hc : args.lookup "cpf" with _ | c
  · rw [hc] at hval; simp at hval
  · rw [hc] at hval
    rcases hv : args.lookup "valor" with _ | v
    · rw [hv] at hval; simp at hval
    · rw [hv] at hval
      rcases hq : args.lookup "qtd_parcelas" with _ | q
      · rw [hq] at hval; simp at hval
      · rw [hq] at hval
        simp only [] at hval
        refine ⟨q, rfl, ?_⟩
        rcases hf : pyFloat v with _ | valor
        · rw [hf] at hval; simp at hval
        · rw [hf] at hval
          rcases hi : pyInt q with _ | qtd
          · rw [hi] at hval; simp at hval
          · rw [hi] at hval
            have hqtd : 0 < qtd := by
              by_contra hnot
              have hle : qtd ≤ 0 := Int.not_lt.mp hnot
              simp [hle] at hval
            cases q with
            | jint n =>
              simp only [pyInt, Option.some.injEq] at hi
              simp only [pyToNum, ne_eq, Option.some.injEq]
              intro hzero
              have hn : n = 0 := by exact_mod_cast hzero
              omega
            | jnum qr =>
              simp only [pyInt, Option.some.injEq] at hi
              simp only [pyToNum, ne_eq, Option.some.injEq]
              intro hzero
              rw [hzero] at hi
              simp [ratTrunc] at hi
              omega
            | jbool b =>
              cases b with
              | true => simp [pyToNum]
              | false =>
                simp only [pyInt, Bool.false_eq_true, if_false, Option.some.injEq] at hi
                omega
            | jstr s => simp [pyToNum]
            | jnull => simp [pyInt] at hi
            | jarr xs => simp [pyInt] at hi
            | jobj fields => simp [pyInt] at hi

/-- Witness for C10 at a concrete validated argument map. -/
theorem validated_loan_divisor_nonzero_witness :
    validateArguments "emprestimo_agent" argsEmprestimoValidos = true ∧
    ∃ q, argsEmprestimoValidos.lookup "qtd_parcelas" = some q ∧ pyToNum q ≠ some 0 :=
  ⟨rfl, validated_loan_divisor_nonzero argsEmprestimoValidos rfl⟩

/-- A prefix of `a` is also a prefix of `a ++ b`. -/
theorem isPrefixOf_append_of_isPrefixOf (p a b : List Char)
    (h : p.isPrefixOf a = true) : p.isPrefixOf (a ++ b) = true := by
  induction p generalizing a with
  | nil => simp [List.isPrefixOf]
  | cons c t ih =>
    cases a with
    | nil => simp [List.isPrefixOf] at h
    | cons c2 t2 =>
      simp only [List.isPrefixOf, Bool.and_eq_true] at h
      simp only [List.cons_append, List.isPrefixOf, Bool.and_eq_true]
      exact ⟨h.1, ih t2 h.2⟩

/-- A substring occurrence in `a` survives appending `b` on the right. -/
theorem hasSubstringL_append_left (a b pat : List Char)
    (h : hasSubstringL a pat = true) : hasSubstringL (a ++ b) pat = true := by
  induction a with
  | nil =>
    unfold hasSubstringL at h
    split at h
    · rename_i hpre
      unfold hasSubstringL
      rw [if_pos (isPrefixOf_append_of_isPrefixOf pat [] b hpre)]
    · simp at h
  | cons c t ih =>
    unfold hasSubstringL at h
    unfold hasSubstringL
    split at h
    · rename_i hpre
      rw [if_pos (isPrefixOf_append_of_isPrefixOf pat (c :: t) b hpre)]
    · split
      · rfl
      · exact ih h

/-- A substring occurrence in `b` survives prepending `a` on the left. -/
theorem hasSubstringL_append_right (a b pat : List Char)
    (h : hasSubstringL b pat = true) : hasSubstringL (a ++ b) pat = true := by
  induction a with
  | nil => simpa using h
  | cons c t ih =>
    unfold hasSubstringL
    split
    · rfl
    · exact ih

/-- String version: an occurrence in the left half survives append. -/
theorem hasSubstr_append_left (s t pat : String)
    (h : hasSubstr s pat = true) : hasSubstr (s ++ t) pat = true := by
  unfold hasSubstr at h ⊢
  rw [String.data_append]
  exact hasSubstringL_append_left s.data t.data pat.data h

/-- String version: an occurrence in the right half survives append. -/
theorem hasSubstr_append_right (s t pat : String)
    (h : hasSubstr t pat = true) : hasSubstr (s ++ t) pat = true := by
  unfold hasSubstr at h ⊢
  rw [String.data_append]
  exact hasSubstringL_append_right s.data t.data pat.data h

/-- The injected identity message always satisfies the injection
guard's own predicate, whatever the identifier. -/
theorem ehMensagemCpf_mensagemCpf (cpf : String) :
    ehMensagemCpf (mensagemCpf cpf) = true := by
  unfold ehMensagemCpf mensagemCpf
  simp only [beq_self_eq_true, Bool.true_and]
  exact hasSubstr_append_left ("O CPF do usuário para esta sessão é " ++ cpf) "."
    "CPF do usuário"
    (hasSubstr_append_left "O CPF do usuário para esta sessão é " cpf
      "CPF do usuário" (by decide))

/-- C9 (amended): starting from a history with no identity-context
system message, applying the CPF injection once or any number of
further times yields exactly one identity message, placed first; and a
history that already contains such a message is left unchanged
(idempotence). -/
theorem cpf_injection_invariant (historico : List Message) (cpf : String) (n : Nat)
    (hnone : historico.any ehMensagemCpf = false) :
    (fun h => adicionarCpfAoContexto h cpf)^[n + 1] historico =
      mensagemCpf cpf :: historico ∧
    ((fun h => adicionarCpfAoContexto h cpf)^[n + 1] historico).countP ehMensagemCpf = 1 ∧
    ((fun h => adicionarCpfAoContexto h cpf)^[n + 1] historico).head? =
      some (mensagemCpf cpf) ∧
    ∀ h2 : List Message, h2.any ehMensagemCpf = true →
      adicionarCpfAoContexto h2 cpf = h2 := by
  have hfix : ∀ h2 : List Message, h2.any ehMensagemCpf = true →
      adicionarCpfAoContexto h2 cpf = h2 := by
    intro h2 hh
    simp [adicionarCpfAoContexto, hh]
  have hstep : adicionarCpfAoContexto historico cpf = mensagemCpf cpf :: historico := by
    simp [adicionarCpfAoContexto, hnone]
  have hiter : (fun h => adicionarCpfAoContexto h cpf)^[n + 1] historico =
      mensagemCpf cpf :: historico := by
    induction n with
    | zero => simpa [Function.iterate_one] using hstep
    | succ k ih =>
      rw [Function.iterate_succ_apply', ih]
      exact hfix _ (by simp [ehMensagemCpf_mensagemCpf])
  refine ⟨hiter, ?_, ?_, hfix⟩
  · rw [hiter]
    rw [List.countP_cons]
    have h0 : historico.countP ehMensagemCpf = 0 := by
      rw [List.countP_eq_zero]
      intro a ha
      exact (List.any_eq_false.mp hnone) a ha
    simp [h0, ehMensagemCpf_mensagemCpf]
  · rw [hiter]; rfl

/-- Counterexample for C9 as stated: a history that already holds two
identity messages is left unchanged by the injection, so "at most one
identity system message after any number of applications" fails for
it. -/
theorem cpf_injection_counterexample :
    adicionarCpfAoContexto historicoDoisCpf "111" = historicoDoisCpf ∧
    historicoDoisCpf.countP ehMensagemCpf = 2 := by decide

/-- Witness for C9's amended theorem: three applications to the empty
history produce exactly one identity message, at the head. -/
theorem cpf_injection_invariant_witness :
    ([] : List Message).any ehMensagemCpf = false ∧
    ((fun h => adicionarCpfAoContexto h "111")^[3] [] = [mensagemCpf "111"] ∧
     ((fun h => adicionarCpfAoContexto h "111")^[3] ([] : List Message)).countP
        ehMensagemCpf = 1) :=
  ⟨rfl, (cpf_injection_invariant [] "111" 2 rfl).1,
    (cpf_injection_invariant [] "111" 2 rfl).2.1⟩

/-- Flooring an integer-valued rational gives the integer back. -/
theorem ratFloorZ_intCast (n : ℤ) : ratFloorZ ((n : ℚ)) = n := by
  unfold ratFloorZ
  rw [Rat.num_intCast, Rat.den_intCast]
  simp [Int.fdiv_one]

/-- Banker's rounding fixes integers. -/
theorem roundHalfEven_intCast (n : ℤ) : roundHalfEven ((n : ℚ)) = n := by
  unfold roundHalfEven
  rw [ratFloorZ_intCast]
  norm_num

/-- C8: against any user database, a known non-restricted customer
`111` asking 1200 in 6 installments is approved with an installment
amount of exactly 200; a restricted (`nome_sujo`) customer asking 800
is refused with a message citing the R$500,00 ceiling. -/
theorem loan_scenarios :
    (∀ (db : List (String × Cliente)) (u : Cliente),
        db.lookup "111" = some u → u.nomeSujo = false →
        (EmprestimoAgent.processar "111" 1200 6 db).aprovado = true ∧
        (EmprestimoAgent.processar "111" 1200 6 db).valorSimulado =
          some ⟨1200, 6, 200⟩) ∧
    (∀ (db : List (String × Cliente)) (cpf : String) (u : Cliente) (qtd : Int),
        db.lookup cpf = some u → u.nomeSujo = true →
        (EmprestimoAgent.processar cpf 800 qtd db).aprovado = false ∧
        hasSubstr (EmprestimoAgent.processar cpf 800 qtd db).mensagem "R$500,00" = true) := by
  constructor
  · intro db u hlook hsujo
    have hr200 : roundTo2 ((1200 : ℚ) / 6) = 200 := by
      have hdiv : (1200 : ℚ) / 6 = 200 := by norm_num
      rw [hdiv]
      unfold roundTo2
      have h1 : (200 : ℚ) * 100 = ((20000 : ℤ) : ℚ) := by norm_num
      rw [h1, roundHalfEven_intCast]
      norm_num
    simp [EmprestimoAgent.processar, hlook, hsujo, hr200]
  · intro db cpf u qtd hlook hsujo
    have hcond : (u.nomeSujo = true) ∧ (500 : ℚ) < 800 := ⟨hsujo, by norm_num⟩
    constructor
    · simp [EmprestimoAgent.processar, hlook, hsujo]
      norm_num
    · simp only [EmprestimoAgent.processar, hlook]
      rw [if_pos hcond]
      exact hasSubstr_append_right _ _ _ (by decide)

/-- Witness for C8 at two concrete one-entry databases. -/
theorem loan_scenarios_witness :
    ([("111", ⟨"Lucas", false⟩)] : List (String × Cliente)).lookup "111" =
      some ⟨"Lucas", false⟩ ∧
    (EmprestimoAgent.processar "111" 1200 6 [("111", ⟨"Lucas", false⟩)]).aprovado = true ∧
    (EmprestimoAgent.processar "111" 1200 6
      [("111", ⟨"Lucas", false⟩)]).valorSimulado = some ⟨1200, 6, 200⟩ ∧
    (EmprestimoAgent.processar "222" 800 4 [("222", ⟨"Maria", true⟩)]).aprovado = false ∧
    hasSubstr (EmprestimoAgent.processar "222" 800 4
      [("222", ⟨"Maria", true⟩)]).mensagem "R$500,00" = true := by
  have h1 := loan_scenarios.1 [("111", ⟨"Lucas", false⟩)] ⟨"Lucas", false⟩ rfl rfl
  have h2 := loan_scenarios.2 [("222", ⟨"Maria", true⟩)] "222" ⟨"Maria", true⟩ 4 rfl rfl
  exact ⟨rfl, h1.1, h1.2, h2.1, h2.2⟩

/-- Shape of a collected pair: the second component is an assistant
message of the history tagged with the agent, the first is a user-role
message (the nearest preceding one found by the backwards scan). -/
theorem mem_interacoesAgente {historico : List Message} {agente : String}
    {pr : Message × Message} (h : pr ∈ interacoesAgente historico agente) :
    pr.1.role = "user" ∧ pr.2.role = "assistant" ∧ pr.2.agent = some agente ∧
      pr.2 ∈ historico := by
  rw [interacoesAgente, List.mem_filterMap] at h
  obtain ⟨p, hp, heq⟩ := h
  by_cases hcond : (p.2.role == "assistant" && p.2.agent == some agente) = true
  · rw [if_pos hcond] at heq
    rw [Option.map_eq_some'] at heq
    obtain ⟨uu, hfind, hpair⟩ := heq
    rw [perguntaAnterior] at hfind
    have hu := List.find?_some hfind
    have hmem : p.2 ∈ historico := by
      rw [List.enum_eq_zip_range] at hp
      exact (List.of_mem_zip (by exact hp)).2
    simp only [Bool.and_eq_true, beq_iff_eq] at hcond hu
    rw [← hpair]
    exact ⟨hu, hcond.1, hcond.2, hmem⟩
  · rw [if_neg hcond] at heq
    cases heq

/-- The trailing window is a sub-collection of all collected pairs. -/
theorem mem_ultimasInteracoes {historico : List Message} {agente : String}
    {limite : Nat} {pr : Message × Message}
    (h : pr ∈ ultimasInteracoes historico agente limite) :
    pr ∈ interacoesAgente historico agente := by
  rw [ultimasInteracoes] at h
  split at h
  · exact h
  · exact List.Sublist.mem h (List.drop_sublist _ _)

/-- Counting over a flattened pair list where no first component
matches and every second component matches. -/
theorem countP_flatPairs_eq_length (p : Message → Bool) (L : List (Message × Message))
    (h1 : ∀ pr ∈ L, p pr.1 = false) (h2 : ∀ pr ∈ L, p pr.2 = true) :
    (L.flatMap (fun pr => [pr.1, pr.2])).countP p = L.length := by
  induction L with
  | nil => rfl
  | cons a t ih =>
    simp only [List.flatMap_cons, List.countP_append, List.length_cons]
    rw [ih (fun pr hpr => h1 pr (List.mem_cons_of_mem a hpr))
        (fun pr hpr => h2 pr (List.mem_cons_of_mem a hpr))]
    have ha1 := h1 a (List.mem_cons_self a t)
    have ha2 := h2 a (List.mem_cons_self a t)
    simp [List.countP_cons, ha1, ha2]
    omega

/-- Counting over a flattened pair list where nothing matches. -/
theorem countP_flatPairs_eq_zero (p : Message → Bool) (L : List (Message × Message))
    (h1 : ∀ pr ∈ L, p pr.1 = false) (h2 : ∀ pr ∈ L, p pr.2 = false) :
    (L.flatMap (fun pr => [pr.1, pr.2])).countP p = 0 := by
  induction L with
  | nil => rfl
  | cons a t ih =>
    simp only [List.flatMap_cons, List.countP_append]
    rw [ih (fun pr hpr => h1 pr (List.mem_cons_of_mem a hpr))
        (fun pr hpr => h2 pr (List.mem_cons_of_mem a hpr))]
    have ha1 := h1 a (List.mem_cons_self a t)
    have ha2 := h2 a (List.mem_cons_self a t)
    simp [List.countP_cons, ha1, ha2]

/-- How many messages tagged `agente` one agent's flattened window
contributes: the window length for `agente` itself, none for any other
agent. -/
theorem countP_obterUltimas (historico : List Message) (agente b : String)
    (limite : Nat) :
    (obterUltimasInteracoesAgente historico b limite).countP
        (fun m => m.role == "assistant" && m.agent == some agente) =
      if b = agente then (ultimasInteracoes historico b limite).length else 0 := by
  by_cases hb : b = agente
  · rw [if_pos hb]
    rw [obterUltimasInteracoesAgente, countP_flatPairs_eq_length]
    · intro pr hpr
      have h := mem_interacoesAgente (mem_ultimasInteracoes hpr)
      simp [h.1]
    · intro pr hpr
      have h := mem_interacoesAgente (mem_ultimasInteracoes hpr)
      simp [h.2.1, h.2.2.1, hb]
  · rw [if_neg hb]
    rw [obterUltimasInteracoesAgente, countP_flatPairs_eq_zero]
    · intro pr hpr
      have h := mem_interacoesAgente (mem_ultimasInteracoes hpr)
      simp [h.1]
    · intro pr hpr
      have h := mem_interacoesAgente (mem_ultimasInteracoes hpr)
      simp [h.2.1, h.2.2.1, hb]

/-- Summing the per-agent tag counts over a list that does not hold the
tag gives zero. -/
theorem sum_map_ite_zero (agente : String) (k : Nat) :
    ∀ (t : List String), agente ∉ t →
      (t.map (fun b => if b = agente then k else 0)).sum = 0 := by
  intro t
  induction t with
  | nil => intro _; rfl
  | cons a t ih =>
    intro h
    have ha : a ≠ agente := fun hh => h (hh ▸ List.mem_cons_self a t)
    have ht : agente ∉ t := fun hh => h (List.mem_cons_of_mem a hh)
    simp [ha, ih ht]

/-- Summing the per-agent tag counts over a duplicate-free list that
holds the tag exactly once gives the tag's own count. -/
theorem sum_map_ite_mem (agente : String) (k : Nat) :
    ∀ (agentes : List String), agentes.Nodup → agente ∈ agentes →
      (agentes.map (fun b => if b = agente then k else 0)).sum = k := by
  intro agentes
  induction agentes with
  | nil => intro _ h; cases h
  | cons a t ih =>
    intro hnd hmem
    have hnd2 := List.nodup_cons.mp hnd
    rcases List.mem_cons.mp hmem with ha | ht
    · subst ha
      simp [sum_map_ite_zero agente k t hnd2.1]
    · have ha : a ≠ agente := by
        intro hh
        exact hnd2.1 (hh ▸ ht)
      simp only [List.map_cons, List.sum_cons, if_neg ha]
      rw [ih hnd2.2 ht]
      omega

/-- An agent with at least one collected pair and a non-empty tag is
among the discovered agent tags. -/
theorem agente_mem_agentesEncontrados (historico : List Message) (agente : String)
    (hne : agente ≠ "") (hex : interacoesAgente historico agente ≠ []) :
    agente ∈ agentesEncontrados historico := by
  obtain ⟨pr, hpr⟩ := List.exists_mem_of_ne_nil _ hex
  have h := mem_interacoesAgente hpr
  rw [agentesEncontrados, List.mem_dedup, List.mem_filterMap]
  refine ⟨pr.2, h.2.2.2, ?_⟩
  rw [h.2.2.1]
  simp [h.2.1, hne]

/-- The trailing window has exactly `limite` pairs when more pairs than
`limite` were collected. -/
theorem length_ultimasInteracoes (historico : List Message) (agente : String)
    (limite : Nat) (hK : 0 < limite)
    (hcount : limite < (interacoesAgente historico agente).length) :
    (ultimasInteracoes historico agente limite).length = limite := by
  rw [ultimasInteracoes]
  have h0 : (limite == 0) = false := by simp; omega
  rw [h0]
  simp only [Bool.false_eq_true, if_false, List.length_drop]
  omega

/-- C1 (amended): for a non-empty agent tag with more than `limite`
pairable tagged assistant messages (each having a preceding user-role
message) and `limite > 0`, the reconstruction returns exactly `limite`
assistant messages with that tag; the output is sorted by the original
first-occurrence index in the full history (the code's stable sort
key), and both components of every selected (user, assistant) pair are
present in the output. -/
theorem window_bound (historico : List Message) (agente : String) (limite : Nat)
    (hK : 0 < limite) (hne : agente ≠ "")
    (hcount : limite < (interacoesAgente historico agente).length) :
    (aplicarLimitacaoHistorico historico limite).countP
        (fun m => m.role == "assistant" && m.agent == some agente) = limite ∧
    List.Pairwise
      (fun x y => chaveOrdenacao historico x ≤ chaveOrdenacao historico y)
      (aplicarLimitacaoHistorico historico limite) ∧
    ∀ pr ∈ ultimasInteracoes historico agente limite,
      pr.1 ∈ aplicarLimitacaoHistorico historico limite ∧
      pr.2 ∈ aplicarLimitacaoHistorico historico limite := by
  have hex : interacoesAgente historico agente ≠ [] := by
    intro h
    rw [h] at hcount
    simp at hcount
  have hmemA := agente_mem_agentesEncontrados historico agente hne hex
  have hperm : (aplicarLimitacaoHistorico historico limite).Perm
      (historico.filter (fun m => m.role == "system") ++
        (agentesEncontrados historico).flatMap
          (fun a => obterUltimasInteracoesAgente historico a limite)) :=
    List.perm_insertionSort _ _
  refine ⟨?_, ?_, ?_⟩
  · rw [List.Perm.countP_eq _ hperm, List.countP_append]
    have hsys : (historico.filter (fun m => m.role == "system")).countP
        (fun m => m.role == "assistant" && m.agent == some agente) = 0 := by
      rw [List.countP_eq_zero]
      intro a ha
      have hrole := (List.mem_filter.mp ha).2
      simp only [beq_iff_eq] at hrole
      simp [hrole]
    have hmap : (agentesEncontrados historico).map
        ((List.countP (fun m => m.role == "assistant" && m.agent == some agente)) ∘
          (fun a => obterUltimasInteracoesAgente historico a limite)) =
        (agentesEncontrados historico).map
          (fun b => if b = agente then limite else 0) := by
      apply List.map_congr_left
      intro b hb
      show (obterUltimasInteracoesAgente historico b limite).countP
          (fun m => m.role == "assistant" && m.agent == some agente) = _
      rw [countP_obterUltimas]
      by_cases hba : b = agente
      · rw [if_pos hba, if_pos hba, hba,
          length_ultimasInteracoes historico agente limite hK hcount]
      · rw [if_neg hba, if_neg hba]
    have hflat : ((agentesEncontrados historico).flatMap
        (fun a => obterUltimasInteracoesAgente historico a limite)).countP
        (fun m => m.role == "assistant" && m.agent == some agente) = limite := by
      rw [List.countP_flatMap, hmap]
      exact sum_map_ite_mem agente limite _ (List.nodup_dedup _) hmemA
    rw [hsys, hflat]
    omega
  · have htotal : IsTotal Message
        (fun x y => chaveOrdenacao historico x ≤ chaveOrdenacao historico y) :=
      ⟨fun a b => Nat.le_total _ _⟩
    have htrans : IsTrans Message
        (fun x y => chaveOrdenacao historico x ≤ chaveOrdenacao historico y) :=
      ⟨fun a b c hab hbc => Nat.le_trans hab hbc⟩
    exact @List.sorted_insertionSort Message _ _ htotal htrans _
  · intro pr hpr
    have hchunk1 : pr.1 ∈ obterUltimasInteracoesAgente historico agente limite := by
      rw [obterUltimasInteracoesAgente, List.mem_flatMap]
      exact ⟨pr, hpr, by simp⟩
    have hchunk2 : pr.2 ∈ obterUltimasInteracoesAgente historico agente limite := by
      rw [obterUltimasInteracoesAgente, List.mem_flatMap]
      exact ⟨pr, hpr, by simp⟩
    constructor
    · rw [List.Perm.mem_iff hperm]
      apply List.mem_append_right
      rw [List.mem_flatMap]
      exact ⟨agente, hmemA, hchunk1⟩
    · rw [List.Perm.mem_iff hperm]
      apply List.mem_append_right
      rw [List.mem_flatMap]
      exact ⟨agente, hmemA, hchunk2⟩

/-- Counterexample for C1 as stated: a history of six assistant
messages tagged by the loan agent with no user message anywhere has
more than `K = 5` tagged assistant messages, yet the reconstruction
returns none of them (no pair can be formed), not exactly `K`. -/
theorem window_bound_counterexample :
    historicoSeisRespostas.countP
      (fun m => m.role == "assistant" && m.agent == some "emprestimo_agent") = 6 ∧
    aplicarLimitacaoHistorico historicoSeisRespostas 5 = [] := by decide

/-- Witness for C1's amended theorem: six complete exchanges of the
loan agent, window of five. -/
theorem window_bound_witness :
    0 < 5 ∧ ("emprestimo_agent" : String) ≠ "" ∧
    5 < (interacoesAgente historicoSeisPares "emprestimo_agent").length ∧
    ((aplicarLimitacaoHistorico historicoSeisPares 5).countP
        (fun m => m.role == "assistant" && m.agent == some "emprestimo_agent") = 5 ∧
      List.Pairwise
        (fun x y => chaveOrdenacao historicoSeisPares x ≤ chaveOrdenacao historicoSeisPares y)
        (aplicarLimitacaoHistorico historicoSeisPares 5) ∧
      ∀ pr ∈ ultimasInteracoes historicoSeisPares "emprestimo_agent" 5,
        pr.1 ∈ aplicarLimitacaoHistorico historicoSeisPares 5 ∧
        pr.2 ∈ aplicarLimitacaoHistorico historicoSeisPares 5) :=
  ⟨by decide, by decide, by decide,
    window_bound historicoSeisPares "emprestimo_agent" 5 (by decide) (by decide) (by decide)⟩
